import Mathlib

/-!
Verification of `lsreader`, a reader for Chromium-family Local Storage
SQLite files.  The Python module is shallowly embedded: OS facilities
(`psutil`, `os.listdir`, `os.readlink`, the SQLite driver) are modelled as
explicit environment records, generators as the pair of the list of yielded
elements and an optional terminal exception, and Python exceptions as an
error type threaded through `Except`.
-/

/-- Python exceptions observable from this module: `KeyError` (missing
environment variable), `IndexError` (raised by `LocalStorage.__getitem__`),
`AttributeError` (calling `.execute`/`.cursor` on `None` after a failed
`connect`, i.e. the NotConnected / ConnectionRequired condition),
`psutil.AccessDenied` and `psutil.NoSuchProcess`. -/
inductive PyErr where
  | keyError
  | indexError
  | attributeError
  | accessDenied
  | noSuchProcess
deriving DecidableEq, Repr

/-- Failures of the process-inspection capability (`psutil`): attribute
reads such as `Process.username()` and `Process.exe()` may raise
`AccessDenied` or `NoSuchProcess`. -/
inductive PErr where
  | accessDenied
  | noSuchProcess
deriving DecidableEq, Repr

/-- The Python exception corresponding to a `psutil` failure. -/
def PErr.toPyErr : PErr → PyErr
  | .accessDenied => .accessDenied
  | .noSuchProcess => .noSuchProcess

/-- A SQLite value as surfaced to Python by `sqlite3`: `NULL` becomes
`None`, plus integers, text and blobs (`bytes`, modelled as a byte list). -/
inductive SValue where
  | null
  | int (i : Int)
  | text (s : String)
  | blob (b : List Nat)
deriving DecidableEq, Repr

/-- Python truthiness of a value returned from the database: `None`, `0`,
`""` and `b""` are falsy, everything else truthy.  This is the test
`if item:` in `LocalStorage.__getitem__`. -/
def SValue.truthy : SValue → Bool
  | .null => false
  | .int i => i != 0
  | .text s => s != ""
  | .blob b => !b.isEmpty

/-- Index (from the front) of the last `'/'` in a character list, if any:
the `p.rfind('/')` step of `posixpath.dirname` / `posixpath.basename`. -/
def rfindSlash : List Char → Option Nat
  | [] => none
  | c :: t =>
    match rfindSlash t with
    | some i => some (i + 1)
    | none => if c = '/' then some 0 else none

/-- `os.path.dirname` on POSIX: the part of the path up to the last `'/'`,
with trailing slashes stripped unless the head consists only of slashes;
the empty string when the path has no `'/'`. -/
def dirname (p : String) : String :=
  match rfindSlash p.toList with
  | none => ""
  | some i =>
    let head := p.toList.take (i + 1)
    if head.all (· = '/') then String.mk head
    else String.mk ((head.reverse.dropWhile (· = '/')).reverse)

/-- `os.path.basename` on POSIX: the part of the path after the last
`'/'`, or the whole string when it has no `'/'`. -/
def basename (p : String) : String :=
  match rfindSlash p.toList with
  | none => p
  | some i => String.mk (p.toList.drop (i + 1))

/-- Python's `s.startswith(pre)`. -/
def strStartsWith (s pre : String) : Bool :=
  pre.toList.isPrefixOf s.toList

/-- Python's `s.endswith(suf)`. -/
def strEndsWith (s suf : String) : Bool :=
  suf.toList.isSuffixOf s.toList

/-- `os.path.join(a, b)` on POSIX for two components: `b` if it is
absolute, otherwise `a` and `b` separated by exactly one `'/'`. -/
def pathJoin (a b : String) : String :=
  if strStartsWith b "/" then b
  else if a = "" || strEndsWith a "/" then a ++ b
  else a ++ "/" ++ b

/-- Substring test on character lists: does `pat` occur contiguously in
the haystack?  Scans left to right, as Python's `in` does. -/
def containsSub (pat : List Char) : List Char → Bool
  | [] => pat.isEmpty
  | c :: t => pat.isPrefixOf (c :: t) || containsSub pat t

/-- Python's `pat in s` substring test on strings. -/
def strContains (s pat : String) : Bool :=
  containsSub pat.toList s.toList

instance {ε α : Type} [DecidableEq ε] [DecidableEq α] : DecidableEq (Except ε α)
  | Except.error x, Except.error y =>
    if h : x = y then isTrue (h ▸ rfl)
    else isFalse (fun hc => h (by cases hc; rfl))
  | Except.error _, Except.ok _ => isFalse (fun hc => Except.noConfusion hc)
  | Except.ok _, Except.error _ => isFalse (fun hc => Except.noConfusion hc)
  | Except.ok x, Except.ok y =>
    if h : x = y then isTrue (h ▸ rfl)
    else isFalse (fun hc => h (by cases hc; rfl))

/-- A `psutil.Process` as consumed by this module: its pid and the results
of the attribute reads `username()` and `exe()`, each of which may raise a
`psutil` error. -/
structure Process where
  pid : Nat
  username : Except PErr String
  exe : Except PErr String
deriving DecidableEq, Repr

/-- `search_processes(process_filter, any_user)`.  The generator is run to
completion over the snapshot `procs` of `psutil.process_iter()`; the result
is the list of yielded processes together with the exception, if any, that
terminated the iteration.  `realpath` is `os.path.realpath` (OS symlink
resolution, an environment parameter) and `env_user` is
`os.environ` at key `USER` (`none` when the variable is unset).
Faithful to the source: the guard `any_user or proc.username() ==
os.environ[USER]` runs outside the `try`, so a `psutil` error from
`username()` or a `KeyError` from the environment lookup propagates, while
inside the `try` only `psutil.AccessDenied` from `exe()` (or the filter
call) is swallowed. -/
def search_processes (process_filter : String → String → Bool) (any_user : Bool)
    (realpath : String → String) (env_user : Option String) :
    List Process → List Process × Option PyErr
  | [] => ([], none)
  | p :: rest =>
    let cond : Except PyErr Bool :=
      if any_user then Except.ok true
      else
        match p.username with
        | Except.error e => Except.error e.toPyErr
        | Except.ok un =>
          match env_user with
          | none => Except.error PyErr.keyError
          | some u => Except.ok (un == u)
    match cond with
    | Except.error e => ([], some e)
    | Except.ok false => search_processes process_filter any_user realpath env_user rest
    | Except.ok true =>
      match p.exe with
      | Except.error PErr.accessDenied =>
        search_processes process_filter any_user realpath env_user rest
      | Except.error e => ([], some e.toPyErr)
      | Except.ok e0 =>
        let exePath := realpath e0
        if process_filter exePath (basename exePath) then
          let r := search_processes process_filter any_user realpath env_user rest
          (p :: r.1, r.2)
        else search_processes process_filter any_user realpath env_user rest

/-- The processes `search_processes(filter, any_user=False)` is specified
to yield: owner read successfully and equal to the current user, executable
resolved successfully, and the filter accepts the resolved path and its
basename. -/
def ownProcessMatch (process_filter : String → String → Bool)
    (realpath : String → String) (u : String) (p : Process) : Bool :=
  match p.username, p.exe with
  | Except.ok un, Except.ok e0 =>
    un == u && process_filter (realpath e0) (basename (realpath e0))
  | _, _ => false

/-- The per-process file-descriptor environment consumed by
`list_open_files`: the entries of `/proc/pid/fd` and the
`os.readlink` resolution of each entry to its target pathname. -/
structure ProcFdEnv where
  fdEntries : List String
  readlink : String → String

/-- `list_open_files(proc)`: every entry of the descriptor table, resolved
to its target pathname, in listing order. -/
def list_open_files (env : ProcFdEnv) : List String :=
  env.fdEntries.map env.readlink

/-- The loop body of `find_local_storage`: first pathname containing the
substring `Local Storage`, mapped to its directory; `None` when the
sequence is exhausted. -/
def findLSLoop : List String → Option String
  | [] => none
  | f :: rest =>
    if strContains f "Local Storage" then some (dirname f)
    else findLSLoop rest

/-- `find_local_storage(proc)`: scan the open-file pathnames of the
process in order; return the directory portion of the first one containing
`Local Storage`, or `None` if there is none. -/
def find_local_storage (env : ProcFdEnv) : Option String :=
  findLSLoop (list_open_files env)

/-- A connection handle is identified by the path of the file it was
opened on (`sqlite3.connect(path)`). -/
def Conn := String
deriving DecidableEq, Repr

/-- The filesystem-and-database environment the accessor runs against:
`os.listdir` for directory entries, and for each file path the rows of its
`ItemTable` as returned by `SELECT * FROM ItemTable` (column 0 the key,
column 1 the value). -/
structure FSEnv where
  listdir : String → List String
  itemTable : String → List (String × SValue)

/-- The `LocalStorage` accessor: one (site, storage directory, protocol)
triple plus the lazily established connection, which starts absent. -/
structure LocalStorage where
  site : String
  storage : String
  proto : String := "https"
  connection : Option Conn := none
deriving DecidableEq, Repr

/-- The filename pattern tested by `connect`:
starts with `proto + '_' + site + '_'` and ends with `.localstorage`. -/
def LocalStorage.fileMatches (ls : LocalStorage) (f : String) : Bool :=
  strStartsWith f (ls.proto ++ "_" ++ ls.site ++ "_") &&
    strEndsWith f ".localstorage"

/-- The directory-scan loop of `connect`: return the full path of the
first entry matching the pattern, else `None`. -/
def LocalStorage.connectLoop (ls : LocalStorage) : List String → Option Conn
  | [] => none
  | f :: rest =>
    if ls.fileMatches f then some (pathJoin ls.storage f)
    else ls.connectLoop rest

/-- `LocalStorage.connect`: return the held connection unchanged if there
is one; otherwise list the storage directory, open and store a connection
to the first entry matching the pattern, or return `None` when no entry
matches.  Returns the result together with the updated accessor state. -/
def LocalStorage.connect (fs : FSEnv) (ls : LocalStorage) :
    Option Conn × LocalStorage :=
  match ls.connection with
  | some c => (some c, ls)
  | none =>
    match ls.connectLoop (fs.listdir ls.storage) with
    | some c => (some c, { ls with connection := some c })
    | none => (none, ls)

/-- One dictionary assignment `values[row[0]] = row[1]`, on a dictionary
represented by its lookup function. -/
def dictUpd (d : String → Option SValue) (r : String × SValue) :
    String → Option SValue :=
  fun k => if k == r.1 then some r.2 else d k

/-- The dictionary built by the loop `values[row[0]] = row[1]` of
`LocalStorage.read`, as its lookup function: later rows overwrite earlier
ones with the same key. -/
def pyDict (rows : List (String × SValue)) : String → Option SValue :=
  rows.foldl dictUpd (fun _ => none)

/-- `LocalStorage.read`: connect, run `SELECT * FROM ItemTable` and build
the key-to-value dictionary.  When `connect` returned `None`, the call
`con.execute(...)` raises `AttributeError` on the `None` object. -/
def LocalStorage.read (fs : FSEnv) (ls : LocalStorage) :
    Except PyErr (String → Option SValue) × LocalStorage :=
  match ls.connect fs with
  | (none, ls') => (Except.error PyErr.attributeError, ls')
  | (some c, ls') => (Except.ok (pyDict (fs.itemTable c)), ls')

/-- `LocalStorage.read_key`: connect, run the point query
`SELECT value FROM ItemTable WHERE key=?` and take `fetchone()[0]`; when
no row matches, `fetchone()` is `None`, the subscript raises `TypeError`,
which is caught and turned into `None` (here `SValue.null`, since Python
cannot tell a stored `NULL` from the no-row case).  On an unconnected
accessor `self.connect().cursor()` raises `AttributeError`. -/
def LocalStorage.read_key (fs : FSEnv) (ls : LocalStorage) (key : String) :
    Except PyErr SValue × LocalStorage :=
  match ls.connect fs with
  | (none, ls') => (Except.error PyErr.attributeError, ls')
  | (some c, ls') =>
    match (fs.itemTable c).find? (fun r => r.1 == key) with
    | some r => (Except.ok r.2, ls')
    | none => (Except.ok SValue.null, ls')

/-- `LocalStorage.close`: release the held connection and reset the state
to absent; a no-op when nothing is open. -/
def LocalStorage.close (ls : LocalStorage) : LocalStorage :=
  match ls.connection with
  | some _ => { ls with connection := none }
  | none => ls

/-- `LocalStorage.is_connected`: `bool(self.connection)` (a `sqlite3`
connection object is always truthy). -/
def LocalStorage.is_connected (ls : LocalStorage) : Bool :=
  ls.connection.isSome

/-- `LocalStorage.__getitem__`: evaluate `read_key` and return its result
if truthy, else raise `IndexError`. -/
def LocalStorage.getItem (fs : FSEnv) (ls : LocalStorage) (key : String) :
    Except PyErr SValue × LocalStorage :=
  match ls.read_key fs key with
  | (Except.error e, ls') => (Except.error e, ls')
  | (Except.ok item, ls') =>
    if item.truthy then (Except.ok item, ls')
    else (Except.error PyErr.indexError, ls')

/-! ### Concrete sample environments used by the witnesses -/

/-- A sample filesystem: `/st` holds one non-matching entry and one
matching Local Storage file whose `ItemTable` has a normal row, a row with
a falsy (empty-text) value, and nothing else. -/
def sampleFS : FSEnv where
  listdir := fun d =>
    if d = "/st" then ["other.txt", "https_example.com_0.localstorage"]
    else []
  itemTable := fun p =>
    if p = "/st/https_example.com_0.localstorage" then
      [("theme", SValue.text "dark"), ("empty", SValue.text "")]
    else []

/-- A sample filesystem whose storage directory has no matching entry. -/
def emptyFS : FSEnv where
  listdir := fun _ => ["other.txt"]
  itemTable := fun _ => []

/-- A fresh accessor for `example.com` over `/st`. -/
def sampleLS : LocalStorage := { site := "example.com", storage := "/st" }

/-- The path of the matching file in `sampleFS`. -/
def samplePath : String := "/st/https_example.com_0.localstorage"

/-- The sample accessor after a successful `connect` against `sampleFS`. -/
def connectedLS : LocalStorage := { sampleLS with connection := some samplePath }

/-- A process of the current user `u` with an accessible executable. -/
def pGood : Process := ⟨2, Except.ok "u", Except.ok "/bin/chrome"⟩

/-- A process whose `username()` read raises `AccessDenied`. -/
def pBadUser : Process := ⟨1, Except.error PErr.accessDenied, Except.ok "/bin/x"⟩

/-- A process of the current user whose `exe()` read raises
`AccessDenied`. -/
def pBadExe : Process := ⟨3, Except.ok "u", Except.error PErr.accessDenied⟩

/-- A process owned by another user `w`. -/
def pOther : Process := ⟨4, Except.ok "w", Except.ok "/bin/chrome"⟩

/-- A descriptor table whose second entry resolves into a Local Storage
directory. -/
def sampleFdEnv : ProcFdEnv :=
  ⟨["0", "1"], fun f => if f = "0" then "/tmp/y" else "/p/Local Storage/f.db"⟩

/-- A descriptor table none of whose entries mentions Local Storage. -/
def noLSFdEnv : ProcFdEnv := ⟨["0"], fun _ => "/tmp/y"⟩

/-! ### Helper lemmas -/

theorem connectLoop_eq_find (ls : LocalStorage) (files : List String) :
    ls.connectLoop files =
      (files.find? ls.fileMatches).map (pathJoin ls.storage) := by
  induction files with
  | nil => rfl
  | cons f rest ih =>
    by_cases h : ls.fileMatches f
    · simp [LocalStorage.connectLoop, h, List.find?_cons_of_pos]
    · simp [LocalStorage.connectLoop, h, List.find?_cons_of_neg, ih]

theorem dict_foldl_not_mem (k : String) :
    ∀ (rows : List (String × SValue)) (d : String → Option SValue),
      k ∉ rows.map Prod.fst → rows.foldl dictUpd d k = d k := by
  intro rows
  induction rows with
  | nil => intro d _; rfl
  | cons r rest ih =>
    intro d hk
    simp only [List.map_cons, List.mem_cons, not_or] at hk
    rw [List.foldl_cons, ih (dictUpd d r) hk.2]
    simp [dictUpd, hk.1]

theorem dict_foldl_mem (k : String) (v : SValue) :
    ∀ (rows : List (String × SValue)) (d : String → Option SValue),
      (k, v) ∈ rows → (rows.map Prod.fst).Nodup →
      rows.foldl dictUpd d k = some v := by
  intro rows
  induction rows with
  | nil => intro d h _; cases h
  | cons r rest ih =>
    intro d hmem hnd
    simp only [List.map_cons, List.nodup_cons] at hnd
    rcases List.mem_cons.mp hmem with heq | hmem'
    · cases heq
      rw [List.foldl_cons, dict_foldl_not_mem k rest _ hnd.1]
      simp [dictUpd]
    · rw [List.foldl_cons]
      exact ih (dictUpd d r) hmem' hnd.2

theorem find_row_of_mem_nodup (k : String) (v : SValue) :
    ∀ rows : List (String × SValue),
      (k, v) ∈ rows → (rows.map Prod.fst).Nodup →
      rows.find? (fun r => r.1 == k) = some (k, v) := by
  intro rows
  induction rows with
  | nil => intro h _; cases h
  | cons r rest ih =>
    intro hmem hnd
    simp only [List.map_cons, List.nodup_cons] at hnd
    rcases List.mem_cons.mp hmem with heq | hmem'
    · cases heq
      simp [List.find?_cons_of_pos]
    · have hk : k ∈ rest.map Prod.fst :=
        List.mem_map.mpr ⟨(k, v), hmem', rfl⟩
      have hne : ¬(r.1 == k) = true := by
        simp only [beq_iff_eq]
        intro h
        exact hnd.1 (h ▸ hk)
      have hstep : List.find? (fun r => r.1 == k) (r :: rest) =
          List.find? (fun r => r.1 == k) rest :=
        List.find?_cons_of_neg rest hne
      rw [hstep]
      exact ih hmem' hnd.2

theorem find_row_of_not_mem (k : String) :
    ∀ rows : List (String × SValue),
      k ∉ rows.map Prod.fst →
      rows.find? (fun r => r.1 == k) = none := by
  intro rows hk
  rw [List.find?_eq_none]
  intro r hr
  simp only [beq_iff_eq]
  intro h
  exact hk (List.mem_map.mpr ⟨r, hr, h⟩)

theorem connect_fst_of_none (fs : FSEnv) (ls : LocalStorage)
    (h : ls.connection = none) :
    (ls.connect fs).1 =
      ((fs.listdir ls.storage).find? ls.fileMatches).map (pathJoin ls.storage) := by
  cases hf : (fs.listdir ls.storage).find? ls.fileMatches with
  | some f => simp [LocalStorage.connect, h, connectLoop_eq_find, hf]
  | none => simp [LocalStorage.connect, h, connectLoop_eq_find, hf]

theorem close_eq (ls : LocalStorage) :
    ls.close = { ls with connection := none } := by
  obtain ⟨site, storage, proto, connection⟩ := ls
  cases connection <;> rfl

/-! ### Claim theorems -/

/-- **C1.** On an accessor holding no connection, `connect` lists the
storage directory; at the first entry whose name starts with
`proto + '_' + site + '_'` and ends with `.localstorage` it opens a
database connection to that file, stores it in the accessor and returns
it; when no entry matches the pattern it returns `None` with the state
unchanged — and, by its return type, raises no exception. -/
theorem LocalStorage.connect_resolves_pattern (fs : FSEnv) (ls : LocalStorage)
    (h : ls.connection = none) :
    (∀ f, (fs.listdir ls.storage).find? ls.fileMatches = some f →
      ls.connect fs =
        (some (pathJoin ls.storage f),
          { ls with connection := some (pathJoin ls.storage f) }))
    ∧ ((fs.listdir ls.storage).find? ls.fileMatches = none →
      ls.connect fs = (none, ls)) := by
  constructor
  · intro f hf
    simp [LocalStorage.connect, h, connectLoop_eq_find, hf]
  · intro hf
    simp [LocalStorage.connect, h, connectLoop_eq_find, hf]

/-- Witness for C1: on `sampleFS` the second entry matches and `connect`
returns the opened path, storing it; on `emptyFS` no entry matches and
`connect` returns `None` without touching the state. -/
theorem LocalStorage.connect_resolves_pattern_witness :
    sampleLS.connection = none ∧
    (sampleFS.listdir sampleLS.storage).find? sampleLS.fileMatches =
      some "https_example.com_0.localstorage" ∧
    sampleLS.connect sampleFS = (some samplePath, connectedLS) ∧
    sampleLS.connect emptyFS = (none, sampleLS) :=
  ⟨rfl, by rfl,
    by
      exact (LocalStorage.connect_resolves_pattern sampleFS sampleLS rfl).1
        "https_example.com_0.localstorage" (by rfl),
    (LocalStorage.connect_resolves_pattern emptyFS sampleLS rfl).2 (by rfl)⟩

/-- **C2.** When the storage directory has no entry matching the pattern,
`connect` yields `None` and a subsequent `read` fails with the
NotConnected condition — the `AttributeError` raised by calling
`.execute` on the absent connection — surfaced to the caller, not
recovered. -/
theorem LocalStorage.read_unconnected_raises (fs : FSEnv) (ls : LocalStorage)
    (hconn : ls.connection = none)
    (hnone : ∀ f ∈ fs.listdir ls.storage, ¬ ls.fileMatches f) :
    (ls.connect fs).1 = none ∧
    (ls.read fs).1 = Except.error PyErr.attributeError := by
  have hfind : (fs.listdir ls.storage).find? ls.fileMatches = none :=
    List.find?_eq_none.mpr hnone
  have hc : ls.connect fs = (none, ls) := by
    simp [LocalStorage.connect, hconn, connectLoop_eq_find, hfind]
  exact ⟨by rw [hc], by simp [LocalStorage.read, hc]⟩

/-- Witness for C2: on `emptyFS` the fresh accessor cannot connect and
`read` surfaces the error. -/
theorem LocalStorage.read_unconnected_raises_witness :
    sampleLS.connection = none ∧
    (∀ f ∈ emptyFS.listdir sampleLS.storage, ¬ sampleLS.fileMatches f) ∧
    (sampleLS.connect emptyFS).1 = none ∧
    (sampleLS.read emptyFS).1 = Except.error PyErr.attributeError := by
  have hn : ∀ f ∈ emptyFS.listdir sampleLS.storage, ¬ sampleLS.fileMatches f := by
    decide
  have h := LocalStorage.read_unconnected_raises emptyFS sampleLS rfl hn
  exact ⟨rfl, hn, h.1, h.2⟩

/-- **C4.** `connect` is idempotent: once a call has returned a
connection, a second call returns the identical connection and leaves the
state unchanged, without re-resolving the file — the second call may even
run against a different filesystem (`fs'`) since it never consults it. -/
theorem LocalStorage.connect_idempotent (fs fs' : FSEnv) (ls : LocalStorage)
    (c : Conn) (h : (ls.connect fs).1 = some c) :
    ((ls.connect fs).2).connect fs' = (some c, (ls.connect fs).2) := by
  cases hc : ls.connection with
  | some c0 =>
    have h1 : ls.connect fs = (some c0, ls) := by
      simp [LocalStorage.connect, hc]
    rw [h1] at h ⊢
    obtain rfl : c0 = c := Option.some.inj h
    simp [LocalStorage.connect, hc]
  | none =>
    cases hl : ls.connectLoop (fs.listdir ls.storage) with
    | none =>
      have h1 : ls.connect fs = (none, ls) := by
        simp [LocalStorage.connect, hc, hl]
      rw [h1] at h
      cases h
    | some c0 =>
      have h1 : ls.connect fs = (some c0, { ls with connection := some c0 }) := by
        simp [LocalStorage.connect, hc, hl]
      rw [h1] at h ⊢
      obtain rfl : c0 = c := Option.some.inj h
      simp [LocalStorage.connect]

/-- Witness for C4: after connecting on `sampleFS`, a second `connect`
against the matchless `emptyFS` still returns the same connection. -/
theorem LocalStorage.connect_idempotent_witness :
    (sampleLS.connect sampleFS).1 = some samplePath ∧
    ((sampleLS.connect sampleFS).2).connect emptyFS =
      (some samplePath, (sampleLS.connect sampleFS).2) :=
  ⟨by rfl,
    LocalStorage.connect_idempotent sampleFS emptyFS sampleLS samplePath (by rfl)⟩

/-- **C8.** The connection lifecycle is the two-state machine
disconnected/connected: `close` resets a held connection to absent, is a
no-op when nothing is open and is idempotent; after `close`,
`is_connected` is false and a subsequent `connect` resolves the filename
pattern against the directory listing again. -/
theorem LocalStorage.lifecycle (fs : FSEnv) (ls : LocalStorage) :
    (ls.close).connection = none
    ∧ (ls.close).is_connected = false
    ∧ (ls.close).close = ls.close
    ∧ (ls.connection = none → ls.close = ls)
    ∧ ((ls.close).connect fs).1 =
        ((fs.listdir ls.storage).find? ls.fileMatches).map (pathJoin ls.storage) := by
  refine ⟨by simp [close_eq], by simp [LocalStorage.is_connected, close_eq], ?_, ?_, ?_⟩
  · simp [close_eq]
  · intro h
    obtain ⟨site, storage, proto, connection⟩ := ls
    simp only at h
    rw [close_eq, h]
  · rw [close_eq]
    exact connect_fst_of_none fs { ls with connection := none } rfl

/-- Witness for C8 at the connected sample accessor (and the no-op part
at the fresh one). -/
theorem LocalStorage.lifecycle_witness :
    (connectedLS.close).connection = none ∧
    (connectedLS.close).is_connected = false ∧
    (connectedLS.close).close = connectedLS.close ∧
    (sampleLS.connection = none → sampleLS.close = sampleLS) ∧
    ((connectedLS.close).connect sampleFS).1 = some samplePath := by
  obtain ⟨h1, h2, h3, -, h5⟩ := LocalStorage.lifecycle sampleFS connectedLS
  obtain ⟨-, -, -, h4, -⟩ := LocalStorage.lifecycle sampleFS sampleLS
  exact ⟨h1, h2, h3, h4, by rw [h5]; rfl⟩

/-- **C3.** On a connected accessor, under the table's key-uniqueness
assumption: a key present in `ItemTable` is mapped by the dictionary
`read()` returns to exactly the value `read_key` returns for it; a key
absent from the table makes `read_key` return `None` without error, while
indexed access raises the `IndexError` KeyNotFound condition — the two
lookups deliberately differ on missing keys. -/
theorem LocalStorage.read_vs_read_key (fs : FSEnv) (ls : LocalStorage)
    (path : Conn) (key : String) (hc : ls.connection = some path)
    (hnd : ((fs.itemTable path).map Prod.fst).Nodup) :
    (∀ v, (key, v) ∈ fs.itemTable path →
      ∃ d, (ls.read fs).1 = Except.ok d ∧ d key = some v ∧
        (ls.read_key fs key).1 = Except.ok v)
    ∧ (key ∉ (fs.itemTable path).map Prod.fst →
      (ls.read_key fs key).1 = Except.ok SValue.null ∧
      (ls.getItem fs key).1 = Except.error PyErr.indexError) := by
  have hcn : ls.connect fs = (some path, ls) := by
    simp [LocalStorage.connect, hc]
  constructor
  · intro v hmem
    refine ⟨pyDict (fs.itemTable path), ?_, ?_, ?_⟩
    · simp [LocalStorage.read, hcn]
    · exact dict_foldl_mem key v (fs.itemTable path) _ hmem hnd
    · have hf := find_row_of_mem_nodup key v (fs.itemTable path) hmem hnd
      simp [LocalStorage.read_key, hcn, hf]
  · intro hnm
    have hf := find_row_of_not_mem key (fs.itemTable path) hnm
    constructor
    · simp [LocalStorage.read_key, hcn, hf]
    · simp [LocalStorage.getItem, LocalStorage.read_key, hcn, hf, SValue.truthy]

/-- Witness for C3 on the sample table: `theme` is present and agrees
between `read()` and `read_key`; `missing` is absent, `read_key` returns
`None` and indexed access raises. -/
theorem LocalStorage.read_vs_read_key_witness :
    connectedLS.connection = some samplePath ∧
    ((sampleFS.itemTable samplePath).map Prod.fst).Nodup ∧
    ("theme", SValue.text "dark") ∈ sampleFS.itemTable samplePath ∧
    (∃ d, (connectedLS.read sampleFS).1 = Except.ok d ∧
      d "theme" = some (SValue.text "dark") ∧
      (connectedLS.read_key sampleFS "theme").1 = Except.ok (SValue.text "dark")) ∧
    "missing" ∉ (sampleFS.itemTable samplePath).map Prod.fst ∧
    (connectedLS.read_key sampleFS "missing").1 = Except.ok SValue.null ∧
    (connectedLS.getItem sampleFS "missing").1 = Except.error PyErr.indexError := by
  have h1 := LocalStorage.read_vs_read_key sampleFS connectedLS samplePath
    "theme" rfl (by decide)
  have h2 := LocalStorage.read_vs_read_key sampleFS connectedLS samplePath
    "missing" rfl (by decide)
  have hm := (h2.2 (by decide))
  exact ⟨rfl, by decide, by decide, h1.1 (SValue.text "dark") (by decide),
    by decide, hm.1, hm.2⟩

/-- **C9.** On a connected accessor, a key present with a falsy value
(empty text, empty blob, zero or `NULL`) is returned by `read_key`, but
indexed access still raises `IndexError`: `__getitem__` tests the
truthiness of `read_key`'s result rather than its presence. -/
theorem LocalStorage.getItem_falsy_raises (fs : FSEnv) (ls : LocalStorage)
    (path : Conn) (key : String) (v : SValue) (hc : ls.connection = some path)
    (hmem : (key, v) ∈ fs.itemTable path)
    (hnd : ((fs.itemTable path).map Prod.fst).Nodup)
    (hv : v.truthy = false) :
    (ls.read_key fs key).1 = Except.ok v ∧
    (ls.getItem fs key).1 = Except.error PyErr.indexError := by
  have hcn : ls.connect fs = (some path, ls) := by
    simp [LocalStorage.connect, hc]
  have hf := find_row_of_mem_nodup key v (fs.itemTable path) hmem hnd
  constructor
  · simp [LocalStorage.read_key, hcn, hf]
  · simp [LocalStorage.getItem, LocalStorage.read_key, hcn, hf, hv]

/-- Witness for C9: the sample key `empty` holds the empty string;
`read_key` returns it, indexed access raises. -/
theorem LocalStorage.getItem_falsy_raises_witness :
    connectedLS.connection = some samplePath ∧
    ("empty", SValue.text "") ∈ sampleFS.itemTable samplePath ∧
    (SValue.text "").truthy = false ∧
    (connectedLS.read_key sampleFS "empty").1 = Except.ok (SValue.text "") ∧
    (connectedLS.getItem sampleFS "empty").1 = Except.error PyErr.indexError := by
  have h := LocalStorage.getItem_falsy_raises sampleFS connectedLS samplePath
    "empty" (SValue.text "") rfl (by decide) (by decide) (by decide)
  exact ⟨rfl, by decide, by decide, h.1, h.2⟩

/-- **C7.** `find_local_storage` scans the process's open-file pathnames
in order and returns the directory portion of the first pathname
containing the substring `Local Storage`; when no pathname contains that
substring it returns `None`. -/
theorem find_local_storage_spec (env : ProcFdEnv) :
    find_local_storage env =
      ((list_open_files env).find?
        (fun f => strContains f "Local Storage")).map dirname
    ∧ ((∀ f ∈ list_open_files env, strContains f "Local Storage" = false) →
      find_local_storage env = none) := by
  have hmain : ∀ files : List String,
      findLSLoop files =
        (files.find? (fun f => strContains f "Local Storage")).map dirname := by
    intro files
    induction files with
    | nil => rfl
    | cons f rest ih =>
      by_cases h : strContains f "Local Storage"
      · simp [findLSLoop, h, List.find?_cons_of_pos]
      · simp [findLSLoop, h, List.find?_cons_of_neg, ih]
  refine ⟨hmain _, ?_⟩
  intro hall
  have hnone : (list_open_files env).find?
      (fun f => strContains f "Local Storage") = none :=
    List.find?_eq_none.mpr (fun x hx => by simp [hall x hx])
  show findLSLoop (list_open_files env) = none
  rw [hmain, hnone]
  rfl

/-- Witness for C7: the second open file of `sampleFdEnv` lies in a Local
Storage directory, which is returned; `noLSFdEnv` has none and the result
is `None`. -/
theorem find_local_storage_spec_witness :
    find_local_storage sampleFdEnv = some "/p/Local Storage" ∧
    (∀ f ∈ list_open_files noLSFdEnv, strContains f "Local Storage" = false) ∧
    find_local_storage noLSFdEnv = none := by
  refine ⟨?_, by decide, (find_local_storage_spec noLSFdEnv).2 (by decide)⟩
  rw [(find_local_storage_spec sampleFdEnv).1]
  rfl

/-- **C5.** With `any_user = False`, when `USER` is set to `u` and every
ownership read in the snapshot succeeds (and no executable read fails with
an uncaught non-AccessDenied error), `search_processes` yields exactly the
processes owned by `u` whose resolved executable path and basename satisfy
the filter, finishing without an exception; consequently it never yields a
process of another user, and a filter rejecting every executable yields
the empty sequence. -/
theorem search_processes_spec (flt : String → String → Bool)
    (realpath : String → String) (u : String) (procs : List Process)
    (hun : ∀ p ∈ procs, ∃ un, p.username = Except.ok un)
    (hexe : ∀ p ∈ procs, p.exe ≠ Except.error PErr.noSuchProcess) :
    search_processes flt false realpath (some u) procs =
      (procs.filter (ownProcessMatch flt realpath u), none)
    ∧ (∀ p ∈ (search_processes flt false realpath (some u) procs).1,
        p.username = Except.ok u)
    ∧ ((∀ a b, flt a b = false) →
        (search_processes flt false realpath (some u) procs).1 = []) := by
  have hmain : search_processes flt false realpath (some u) procs =
      (procs.filter (ownProcessMatch flt realpath u), none) := by
    induction procs with
    | nil => rfl
    | cons p rest ih =>
      obtain ⟨un, hu⟩ := hun p (List.mem_cons_self p rest)
      have hex := hexe p (List.mem_cons_self p rest)
      have ih' := ih (fun q hq => hun q (List.mem_cons_of_mem p hq))
        (fun q hq => hexe q (List.mem_cons_of_mem p hq))
      cases hpe : p.exe with
      | error e =>
        cases e with
        | accessDenied =>
          by_cases hq : (un == u)
          · simp [search_processes, hu, hpe, hq, ih', List.filter_cons,
              ownProcessMatch]
          · simp [search_processes, hu, hpe, hq, ih', List.filter_cons,
              ownProcessMatch]
        | noSuchProcess => exact absurd hpe hex
      | ok e0 =>
        by_cases hq : (un == u)
        · by_cases hf : flt (realpath e0) (basename (realpath e0))
          · simp [search_processes, hu, hpe, hq, hf, ih', List.filter_cons,
              ownProcessMatch]
          · simp [search_processes, hu, hpe, hq, hf, ih', List.filter_cons,
              ownProcessMatch]
        · simp [search_processes, hu, hpe, hq, ih', List.filter_cons,
            ownProcessMatch]
  refine ⟨hmain, ?_, ?_⟩
  · intro p hp
    rw [hmain] at hp
    obtain ⟨-, hm⟩ := List.mem_filter.mp hp
    cases hpu : p.username with
    | error e => simp [ownProcessMatch, hpu] at hm
    | ok un =>
      cases hpe : p.exe with
      | error e => simp [ownProcessMatch, hpu, hpe] at hm
      | ok e0 =>
        simp only [ownProcessMatch, hpu, hpe, Bool.and_eq_true, beq_iff_eq]
          at hm
        rw [hm.1]
  · intro hrej
    rw [hmain]
    show List.filter (ownProcessMatch flt realpath u) procs = []
    rw [List.filter_eq_nil_iff]
    intro p _
    cases hpu : p.username <;> cases hpe : p.exe <;>
      simp [ownProcessMatch, hpu, hpe, hrej]

/-- Witness for C5: of the snapshot, only `pGood` is owned by `u` with an
accessible executable accepted by the basename filter; `pOther` belongs to
`w` and `pBadExe` is skipped. -/
theorem search_processes_spec_witness :
    (∀ p ∈ [pGood, pOther, pBadExe], ∃ un, p.username = Except.ok un) ∧
    (∀ p ∈ [pGood, pOther, pBadExe], p.exe ≠ Except.error PErr.noSuchProcess) ∧
    search_processes (fun _ b => b == "chrome") false id (some "u")
        [pGood, pOther, pBadExe] =
      ([pGood, pOther, pBadExe].filter
        (ownProcessMatch (fun _ b => b == "chrome") id "u"), none) ∧
    [pGood, pOther, pBadExe].filter
        (ownProcessMatch (fun _ b => b == "chrome") id "u") = [pGood] := by
  have hun : ∀ p ∈ [pGood, pOther, pBadExe], ∃ un, p.username = Except.ok un := by
    intro p hp
    fin_cases hp
    · exact ⟨"u", rfl⟩
    · exact ⟨"w", rfl⟩
    · exact ⟨"u", rfl⟩
  have hexe : ∀ p ∈ [pGood, pOther, pBadExe],
      p.exe ≠ Except.error PErr.noSuchProcess := by decide
  have h := search_processes_spec (fun _ b => b == "chrome") id "u"
    [pGood, pOther, pBadExe] hun hexe
  exact ⟨hun, hexe, h.1, by rfl⟩

/-- **C6 counterexample.** A process whose ownership read fails with
`AccessDenied` is not silently skipped: the claim expects the enumeration
to continue and yield the following current-user process (`pGood`,
i.e. result `([pGood], none)`), but the exception propagates out of the
uncaught guard and aborts the enumeration with nothing yielded. -/
theorem search_processes_accessDenied_counterexample :
    search_processes (fun _ _ => true) false id (some "u") [pBadUser, pGood] =
      ([], some PyErr.accessDenied) ∧
    (([], some PyErr.accessDenied) : List Process × Option PyErr) ≠
      ([pGood], none) := by
  exact ⟨rfl, by decide⟩

/-- **C6 amended.** During enumeration, a process whose executable
resolution raises `AccessDenied` is silently skipped and the scan
continues with the remaining processes; a failure of the ownership read,
however, is outside the handled region: with `any_user = False` an
`AccessDenied` from `username()` terminates the enumeration with that
exception. -/
theorem search_processes_accessDenied_policy (flt : String → String → Bool)
    (any_user : Bool) (realpath : String → String) (env_user : Option String)
    (p : Process) (rest : List Process) :
    (p.exe = Except.error PErr.accessDenied →
      (any_user = true ∨ (∃ un u, p.username = Except.ok un ∧ env_user = some u)) →
      search_processes flt any_user realpath env_user (p :: rest) =
        search_processes flt any_user realpath env_user rest)
    ∧ (any_user = false → p.username = Except.error PErr.accessDenied →
      search_processes flt any_user realpath env_user (p :: rest) =
        ([], some PyErr.accessDenied)) := by
  constructor
  · intro hexe hcond
    cases hau : any_user with
    | true => simp [search_processes, hexe]
    | false =>
      rcases hcond with h1 | ⟨un, u, hu, henv⟩
      · rw [hau] at h1; cases h1
      · by_cases hq : (un == u)
        · simp [search_processes, hexe, hu, henv, hq]
        · simp [search_processes, hexe, hu, henv, hq]
  · intro hau hu
    subst hau
    simp [search_processes, hu, PErr.toPyErr]

/-- Witness for C6's amended statement: `pBadExe` (executable denied) is
skipped and the scan proceeds to the rest; `pBadUser` (ownership denied)
terminates the scan with `AccessDenied`. -/
theorem search_processes_accessDenied_policy_witness :
    pBadExe.exe = Except.error PErr.accessDenied ∧
    search_processes (fun _ _ => true) false id (some "u") [pBadExe, pGood] =
      search_processes (fun _ _ => true) false id (some "u") [pGood] ∧
    pBadUser.username = Except.error PErr.accessDenied ∧
    search_processes (fun _ _ => true) false id (some "u") [pBadUser, pGood] =
      ([], some PyErr.accessDenied) := by
  have h1 := (search_processes_accessDenied_policy (fun _ _ => true) false id
    (some "u") pBadExe [pGood]).1 rfl (Or.inr ⟨"u", "u", rfl, rfl⟩)
  have h2 := (search_processes_accessDenied_policy (fun _ _ => true) false id
    (some "u") pBadUser [pGood]).2 rfl rfl
  exact ⟨rfl, h1, rfl, h2⟩

/-- **C10.** The current user is read from the `USER` environment
variable, not from an effective uid: when the variable is unset and
`any_user` is false, the first iteration whose ownership read succeeds
raises `KeyError` at the environment lookup, so the call yields no
process. -/
theorem search_processes_env_user_keyError (flt : String → String → Bool)
    (realpath : String → String) (p : Process) (rest : List Process)
    (un : String) (hu : p.username = Except.ok un) :
    search_processes flt false realpath none (p :: rest) =
      ([], some PyErr.keyError) := by
  simp [search_processes, hu]

/-- Witness for C10: with `USER` unset, the scan over `[pGood]` raises
`KeyError` and yields nothing. -/
theorem search_processes_env_user_keyError_witness :
    pGood.username = Except.ok "u" ∧
    search_processes (fun _ _ => true) false id none [pGood] =
      ([], some PyErr.keyError) :=
  ⟨rfl, search_processes_env_user_keyError (fun _ _ => true) id pGood [] "u" rfl⟩
